import Mathlib

/-!
# Verification of the Selective-Repeat sender/receiver in `sr.c`

This file gives a shallow embedding of the protocol core of `sr.c`
(checksum, window-membership test, sender entity A, receiver entity B)
and proves or refutes the specification claims about it.

Conventions of the embedding:
* C `int` becomes `Int`; C `%` on the (non-negative) values appearing here
  agrees with `Int.emod`, which is what `%` denotes below.
* The fixed-size C arrays (`buffer[SEQSPACE]`, `isAcked[SEQSPACE]`,
  `buffer_B_side[SEQSPACE]`) become total functions `Int → _`; the claims
  about bounds are settled against a separate checked embedding whose
  accesses return `Option`.
* The side effects `tolayer3`, `tolayer5`, `starttimer`, `stoptimer`
  become an output list of `Event`s; each handler returns the new state
  together with the events it emitted, in emission order.
* The C `while` loops in `A_input` and `B_input` become fuel-indexed
  recursions; fuel `SEQSPACE = 16` (the loops advance an index mod 16 and
  provably never run longer on the states the claims are about).
-/

/-- `#define SEQSPACE 16` -/
def SEQSPACE : Int := 16

/-- `#define WINDOWSIZE 6` -/
def WINDOWSIZE : Int := 6

/-- `#define NOTINUSE (-1)` -/
def NOTINUSE : Int := -1

/-- entity identifier `A` of the emulator -/
def A : Nat := 0

/-- entity identifier `B` of the emulator -/
def B : Nat := 1

/-- `struct pkt`: the 20 payload chars become a function `Fin 20 → Int`. -/
structure pkt where
  seqnum : Int
  acknum : Int
  payload : Fin 20 → Int
  checksum : Int

/-- `struct msg` of the emulator: 20 data chars. -/
structure msg where
  data : Fin 20 → Int

/-- Calls the entities make into the emulator, recorded as events. -/
inductive Event where
  | tolayer3 (entity : Nat) (packet : pkt)
  | tolayer5 (entity : Nat) (data : Fin 20 → Int)
  | starttimer (entity : Nat)
  | stoptimer (entity : Nat)

/-- `ComputeChecksum`: `seqnum + acknum + Σ payload[i]`. -/
def ComputeChecksum (packet : pkt) : Int :=
  packet.seqnum + packet.acknum + ∑ i : Fin 20, packet.payload i

/-- `IsCorrupted`: true iff the carried checksum disagrees with the recomputation. -/
def IsCorrupted (packet : pkt) : Bool :=
  !(packet.checksum == ComputeChecksum packet)

/-- `is_within_window(seqnum, start, end)`; the C parameter `end` is a Lean
keyword and is called `stop` here. -/
def is_within_window (seqnum start stop : Int) : Bool :=
  if start ≤ stop then
    seqnum ≥ start && seqnum < stop
  else
    seqnum ≥ start || seqnum < stop

/-- Sender-side mutable state: the `static` variables of entity A together
with the emulator statistics counters the A handlers update. -/
structure AState where
  buffer : Int → pkt
  windowfirst : Int
  A_nextseqnum : Int
  isAcked : Int → Bool
  window_full : Nat
  total_ACKs_received : Nat
  new_ACKs : Nat
  packets_resent : Nat

/-- `A_output(message)`. -/
def A_output (s : AState) (message : msg) : AState × List Event :=
  if s.windowfirst + WINDOWSIZE > s.A_nextseqnum then
    let sendpkt : pkt :=
      let p0 : pkt :=
        { seqnum := s.A_nextseqnum, acknum := NOTINUSE,
          payload := message.data, checksum := 0 }
      { p0 with checksum := ComputeChecksum p0 }
    let s1 := { s with buffer := Function.update s.buffer (s.A_nextseqnum % SEQSPACE) sendpkt }
    ({ s1 with A_nextseqnum := (s1.A_nextseqnum + 1) % SEQSPACE },
     Event.tolayer3 A sendpkt ::
       (if s.A_nextseqnum = s.windowfirst then [Event.starttimer A] else []))
  else
    ({ s with window_full := s.window_full + 1 }, [])

/-- The `while` loop of `A_input` that slides `windowfirst` forward over
acknowledged flags, as a fuel-indexed recursion. -/
def slideWhile (next : Int) : Nat → Int → (Int → Bool) → Int × (Int → Bool)
  | 0, windowfirst, acked => (windowfirst, acked)
  | fuel + 1, windowfirst, acked =>
    if windowfirst ≠ next ∧ acked windowfirst = true then
      slideWhile next fuel ((windowfirst + 1) % SEQSPACE)
        (Function.update acked windowfirst false)
    else
      (windowfirst, acked)

/-- `A_input(packet)`. -/
def A_input (s : AState) (packet : pkt) : AState × List Event :=
  if IsCorrupted packet then
    (s, [])
  else
    let s1 := { s with total_ACKs_received := s.total_ACKs_received + 1 }
    if !(is_within_window packet.acknum s1.windowfirst s1.A_nextseqnum) then
      (s1, [])
    else if s1.isAcked packet.acknum then
      (s1, [])
    else
      let s2 := { s1 with new_ACKs := s1.new_ACKs + 1,
                          isAcked := Function.update s1.isAcked packet.acknum true }
      if packet.acknum = s2.windowfirst then
        let r := slideWhile s2.A_nextseqnum 16 s2.windowfirst s2.isAcked
        let s3 := { s2 with windowfirst := r.1, isAcked := r.2 }
        (s3, Event.stoptimer A ::
          (if s3.windowfirst ≠ s3.A_nextseqnum then [Event.starttimer A] else []))
      else
        (s2, [])

/-- `A_timerinterrupt()`. -/
def A_timerinterrupt (s : AState) : AState × List Event :=
  ({ s with packets_resent := s.packets_resent + 1 },
   [Event.tolayer3 A (s.buffer s.windowfirst), Event.starttimer A])

/-- Default packet value; the C `buffer` array is uninitialized at `A_init`
and its initial contents are never observable before being stored to. -/
def pkt0 : pkt :=
  { seqnum := 0, acknum := 0, payload := fun _ => 0, checksum := 0 }

/-- `A_init()`. -/
def A_init : AState :=
  { buffer := fun _ => pkt0
    windowfirst := 0
    A_nextseqnum := 0
    isAcked := fun _ => false
    window_full := 0
    total_ACKs_received := 0
    new_ACKs := 0
    packets_resent := 0 }

/-- Receiver-side mutable state: the `static` variables of entity B together
with the statistics counter `packets_received`. -/
structure BState where
  expectedseqnum : Int
  B_nextseqnum : Int
  buffer_B_side : Int → pkt
  buffer_B_start : Int
  packets_received : Nat

/-- The drain `while` loop of `B_input`, as a fuel-indexed recursion.
Returns the final reassembly buffer, the final `buffer_B_start`, and the
payloads handed to `tolayer5` in order. -/
def drainWhile : Nat → (Int → pkt) → Int → (Int → pkt) × Int × List (Fin 20 → Int)
  | 0, buf, start => (buf, start, [])
  | fuel + 1, buf, start =>
    if (buf start).seqnum ≠ NOTINUSE then
      let r := drainWhile fuel
        (Function.update buf start { buf start with seqnum := NOTINUSE })
        ((start + 1) % SEQSPACE)
      (r.1, r.2.1, (buf start).payload :: r.2.2)
    else
      (buf, start, [])

/-- `B_input(packet)`. -/
def B_input (s : BState) (packet : pkt) : BState × List Event :=
  let left := s.buffer_B_start
  let right := (s.buffer_B_start + WINDOWSIZE) % SEQSPACE
  let prevLeft := (s.buffer_B_start + SEQSPACE - WINDOWSIZE) % SEQSPACE
  let prevRight := s.buffer_B_start
  if IsCorrupted packet then
    (s, [])
  else
    let s1 := { s with packets_received := s.packets_received + 1 }
    if is_within_window packet.seqnum left right then
      let packet_return : pkt :=
        let p0 : pkt :=
          { seqnum := NOTINUSE, acknum := packet.seqnum,
            payload := fun _ => 65, checksum := 0 }  -- 65 = 'A'
        { p0 with checksum := ComputeChecksum p0 }
      let s2 :=
        if (s1.buffer_B_side packet.seqnum).seqnum = NOTINUSE then
          { s1 with buffer_B_side := Function.update s1.buffer_B_side packet.seqnum packet }
        else s1
      let r := drainWhile 16 s2.buffer_B_side s2.buffer_B_start
      ({ s2 with buffer_B_side := r.1, buffer_B_start := r.2.1 },
       Event.tolayer3 B packet_return :: r.2.2.map (Event.tolayer5 B))
    else if is_within_window packet.seqnum prevLeft prevRight then
      let prev_buffer_pkt : pkt :=
        let p0 : pkt :=
          { seqnum := NOTINUSE, acknum := packet.seqnum,
            payload := fun _ => 65, checksum := 0 }  -- 65 = 'A'
        { p0 with checksum := ComputeChecksum p0 }
      (s1, [Event.tolayer3 B prev_buffer_pkt])
    else
      (s1, [])

/-- `B_init()`: slots are marked empty via `seqnum = NOTINUSE` and filled
with `'0'` (= 48). -/
def B_init : BState :=
  { expectedseqnum := 0
    B_nextseqnum := 1
    buffer_B_side := fun _ =>
      { seqnum := NOTINUSE, acknum := NOTINUSE, payload := fun _ => 48, checksum := 0 }
    buffer_B_start := 0
    packets_received := 0 }

/-- One external stimulus delivered to entity A by the emulator. -/
inductive AEvent where
  | output (message : msg)
  | input (packet : pkt)
  | timer

/-- Apply one stimulus to the sender state. -/
def AStep (s : AState) : AEvent → AState
  | .output m => (A_output s m).1
  | .input p => (A_input s p).1
  | .timer => (A_timerinterrupt s).1

/-- Run a sequence of stimuli from a sender state. -/
def runA (s : AState) : List AEvent → AState
  | [] => s
  | e :: rest => runA (AStep s e) rest

/-! ## Window-membership characterization (C3) -/

/-- Exhaustive check of the window-membership characterization over the
16-element sequence space. -/
lemma is_within_window_nat :
    ∀ s < 16, ∀ a < 16, ∀ b < 16,
      (is_within_window (s : Nat) (a : Nat) (b : Nat) = true ↔
        ((s : Int) - (a : Int)) % 16 < ((b : Int) - (a : Int)) % 16) := by
  decide

/-- The membership test agrees with the circular-interval characterization
whenever all three arguments are residues in `[0, 16)`. -/
lemma is_within_window_iff_emod {seq start stop : Int}
    (h1 : 0 ≤ seq) (h2 : seq < 16) (h3 : 0 ≤ start) (h4 : start < 16)
    (h5 : 0 ≤ stop) (h6 : stop < 16) :
    (is_within_window seq start stop = true ↔
      (seq - start) % 16 < (stop - start) % 16) := by
  have e1 : ((seq.toNat : Nat) : Int) = seq := Int.toNat_of_nonneg h1
  have e2 : ((start.toNat : Nat) : Int) = start := Int.toNat_of_nonneg h3
  have e3 : ((stop.toNat : Nat) : Int) = stop := Int.toNat_of_nonneg h5
  rw [← e1, ← e2, ← e3]
  exact is_within_window_nat seq.toNat (by omega) start.toNat (by omega) stop.toNat (by omega)

/-- C3: for all `seq`, `start`, `end` in `[0, SEQSPACE)`, `is_within_window`
returns true iff `seq` lies in the half-open circular interval `[start, end)`,
i.e. `(seq - start) mod SEQSPACE < (end - start) mod SEQSPACE`; in particular
it returns false for every `seq` when `start` equals `end`. -/
theorem is_within_window_correct (seq start stop : Int)
    (h1 : 0 ≤ seq) (h2 : seq < SEQSPACE) (h3 : 0 ≤ start) (h4 : start < SEQSPACE)
    (h5 : 0 ≤ stop) (h6 : stop < SEQSPACE) :
    (is_within_window seq start stop = true ↔
      (seq - start) % SEQSPACE < (stop - start) % SEQSPACE) ∧
    (start = stop → is_within_window seq start stop = false) := by
  simp only [SEQSPACE] at *
  refine ⟨is_within_window_iff_emod h1 h2 h3 h4 h5 h6, ?_⟩
  intro h
  subst h
  simp [is_within_window]

/-- Witness: the characterization evaluated at `seq = 3`, `start = 2`, `end = 5`. -/
theorem is_within_window_correct_witness :
    (is_within_window 3 2 5 = true ↔
      ((3 : Int) - 2) % SEQSPACE < ((5 : Int) - 2) % SEQSPACE) ∧
    ((2 : Int) = 5 → is_within_window 3 2 5 = false) :=
  is_within_window_correct 3 2 5 (by decide) (by decide) (by decide)
    (by decide) (by decide) (by decide)

/-! ## Checksum soundness (C4) -/

/-- C4: for every packet whose checksum field equals `ComputeChecksum` over
its own fields, `IsCorrupted` is false; and mutating any single payload byte
to a different value (so the byte sum changes) makes `IsCorrupted` true. -/
theorem checksum_sound (p : pkt) (h : p.checksum = ComputeChecksum p) :
    IsCorrupted p = false ∧
    ∀ (i : Fin 20) (b : Int), b ≠ p.payload i →
      IsCorrupted { p with payload := Function.update p.payload i b } = true := by
  constructor
  · simp [IsCorrupted, h]
  · intro i b hb
    have hsum : (∑ j : Fin 20, Function.update p.payload i b j)
        = b + ∑ j ∈ Finset.univ.erase i, p.payload j := by
      rw [Finset.sum_update_of_mem (Finset.mem_univ i), Finset.sdiff_singleton_eq_erase]
    have hsum' : (∑ j : Fin 20, p.payload j)
        = p.payload i + ∑ j ∈ Finset.univ.erase i, p.payload j := by
      rw [Finset.add_sum_erase _ _ (Finset.mem_univ i)]
    have hne : p.checksum
        ≠ ComputeChecksum { p with payload := Function.update p.payload i b } := by
      rw [h]
      simp only [ComputeChecksum, hsum, hsum']
      omega
    simp only [IsCorrupted, Bool.not_eq_true', beq_eq_false_iff_ne, ne_eq]
    exact hne

/-- Witness: the zero packet is clean, and bumping payload byte 0 corrupts it. -/
theorem checksum_sound_witness :
    IsCorrupted pkt0 = false ∧
    IsCorrupted { pkt0 with payload := Function.update pkt0.payload 0 1 } = true := by
  have h := checksum_sound pkt0 (by decide)
  exact ⟨h.1, h.2 0 1 (by decide)⟩

/-! ## Timeout retransmission (C9) -/

/-- C9: `A_timerinterrupt` retransmits exactly one packet, the one stored at
buffer slot `base mod SEQSPACE`, increments the resend counter by one, and
restarts the timer; `base`, `next`, the flags and the buffer are unchanged. -/
theorem a_timerinterrupt_resends_oldest (s : AState)
    (h1 : 0 ≤ s.windowfirst) (h2 : s.windowfirst < SEQSPACE) :
    A_timerinterrupt s =
      ({ s with packets_resent := s.packets_resent + 1 },
       [Event.tolayer3 A (s.buffer (s.windowfirst % SEQSPACE)), Event.starttimer A]) := by
  have e : s.windowfirst % SEQSPACE = s.windowfirst := by
    simp only [SEQSPACE] at *
    omega
  rw [A_timerinterrupt, e]

/-- Witness: the timeout handler evaluated at the initial sender state. -/
theorem a_timerinterrupt_resends_oldest_witness :
    A_timerinterrupt A_init =
      ({ A_init with packets_resent := A_init.packets_resent + 1 },
       [Event.tolayer3 A (A_init.buffer (A_init.windowfirst % SEQSPACE)),
        Event.starttimer A]) :=
  a_timerinterrupt_resends_oldest A_init (by decide) (by decide)

/-! ## The sender window guard under wraparound (C1, C2)

`A_output` guards acceptance with the plain integer comparison
`windowfirst + WINDOWSIZE > A_nextseqnum`.  Once `A_nextseqnum` has wrapped
around `SEQSPACE` while `windowfirst` has not, this guard is vacuously true
and the sender keeps accepting messages beyond the window bound.  The
following concrete, fully legal event sequence drives `A_init` to
`windowfirst = 10`, `A_nextseqnum = 0` — a full window,
`(0 - 10) mod 16 = 6 = WINDOWSIZE` — after which `A_output` still accepts. -/

/-- A fixed application message (payload `'0'` = 48 everywhere). -/
def msg0 : msg := ⟨fun _ => 48⟩

/-- The ACK packet entity B sends for sequence number `i`: `seqnum` unused,
`acknum = i`, filler payload `'A'` (= 65), valid checksum. -/
def ackFor (i : Int) : pkt :=
  let p0 : pkt :=
    { seqnum := NOTINUSE, acknum := i, payload := fun _ => 65, checksum := 0 }
  { p0 with checksum := ComputeChecksum p0 }

/-- Submit 6 messages, receive ACKs 0–5, submit 6 more, receive ACKs 6–9,
then submit 4 more.  Leaves the sender at `windowfirst = 10`,
`A_nextseqnum = 0` (wrapped), a full window of 6 in-flight packets. -/
def wrapTrace : List AEvent :=
  List.replicate 6 (AEvent.output msg0) ++
  (List.range 6).map (fun i => AEvent.input (ackFor i)) ++
  List.replicate 6 (AEvent.output msg0) ++
  (List.range 4).map (fun i => AEvent.input (ackFor (6 + i))) ++
  List.replicate 4 (AEvent.output msg0)

set_option maxRecDepth 100000 in
set_option maxHeartbeats 1000000 in
/-- C1 fails on the code: at the reachable state `windowfirst = 10`,
`A_nextseqnum = 0` the circular occupancy `(next - base) mod SEQSPACE`
equals `WINDOWSIZE = 6`, so by the claim a further `A_output` must drop the
message and increment the window-full counter; instead the code accepts it
(`next` advances to 1) and the window-full counter stays 0. -/
theorem a_output_accepts_when_window_full :
    (runA A_init wrapTrace).windowfirst = 10 ∧
    (runA A_init wrapTrace).A_nextseqnum = 0 ∧
    ((runA A_init wrapTrace).A_nextseqnum - (runA A_init wrapTrace).windowfirst)
        % SEQSPACE = WINDOWSIZE ∧
    (A_output (runA A_init wrapTrace) msg0).1.A_nextseqnum = 1 ∧
    (A_output (runA A_init wrapTrace) msg0).1.window_full = 0 := by
  decide

set_option maxRecDepth 100000 in
set_option maxHeartbeats 1000000 in
/-- C2 fails on the code: one more `A_output` from the state above yields a
reachable sender state with `windowfirst = 10`, `A_nextseqnum = 1`, whose
window size `(next - base) mod SEQSPACE = 7` exceeds `WINDOWSIZE = 6`. -/
theorem sender_window_invariant_violated :
    (runA A_init (wrapTrace ++ [AEvent.output msg0])).windowfirst = 10 ∧
    (runA A_init (wrapTrace ++ [AEvent.output msg0])).A_nextseqnum = 1 ∧
    ¬ ((runA A_init (wrapTrace ++ [AEvent.output msg0])).A_nextseqnum
        - (runA A_init (wrapTrace ++ [AEvent.output msg0])).windowfirst)
          % SEQSPACE ≤ WINDOWSIZE := by
  decide

/-! ## Characterization of the sender slide loop (towards C5, C6) -/

/-- Characterization of `slideWhile`: from residues `wf`, `next` in `[0, 16)`
and fuel at least the circular distance `d = (next - wf) mod 16`, the loop
advances `wf` by the length `k` of the maximal run of set flags starting at
`wf` (never past `next`), clears exactly the flags it consumed, and leaves
every other flag alone. -/
lemma slideWhile_char (next : Int) (hn0 : 0 ≤ next) (hn1 : next < 16) :
    ∀ (d fuel : Nat) (wf : Int) (acked : Int → Bool),
      0 ≤ wf → wf < 16 → (next - wf) % 16 = (d : Int) → d ≤ fuel →
      ∃ k : Nat, k ≤ d ∧
        (slideWhile next fuel wf acked).1 = (wf + (k : Int)) % 16 ∧
        (∀ j : Nat, j < k → acked ((wf + (j : Int)) % 16) = true) ∧
        (∀ j : Nat, j < k →
          (slideWhile next fuel wf acked).2 ((wf + (j : Int)) % 16) = false) ∧
        (∀ i : Int, (∀ j : Nat, j < k → (wf + (j : Int)) % 16 ≠ i) →
          (slideWhile next fuel wf acked).2 i = acked i) ∧
        (k = d ∨ acked ((wf + (k : Int)) % 16) = false) := by
  intro d
  induction d with
  | zero =>
    intro fuel wf acked h0 h1 hd hf
    have hnw : next = wf := by omega
    have heq : slideWhile next fuel wf acked = (wf, acked) := by
      cases fuel with
      | zero => rfl
      | succ f =>
        simp only [slideWhile]
        rw [if_neg]
        rintro ⟨hne, -⟩
        exact hne hnw.symm
    have e0 : (wf + ((0 : Nat) : Int)) % 16 = wf := by push_cast; omega
    refine ⟨0, Nat.le_refl 0, ?_, ?_, ?_, ?_, Or.inl rfl⟩
    · rw [heq, e0]
    · intro j hj; omega
    · intro j hj; omega
    · intro i _; rw [heq]
  | succ d ih =>
    intro fuel wf acked h0 h1 hd hf
    push_cast at hd
    have hdlt : (d : Int) + 1 ≤ 15 := by omega
    have hne : wf ≠ next := by omega
    obtain ⟨f, rfl⟩ : ∃ f, fuel = f + 1 := ⟨fuel - 1, by omega⟩
    by_cases hac : acked wf = true
    · -- the loop consumes the flag at `wf` and advances
      have hstep : slideWhile next (f + 1) wf acked
          = slideWhile next f ((wf + 1) % 16) (Function.update acked wf false) := by
        simp only [slideWhile, SEQSPACE]
        rw [if_pos ⟨hne, hac⟩]
      obtain ⟨k, hk, hres, hpre, hclr, hfr, hmax⟩ :=
        ih f ((wf + 1) % 16) (Function.update acked wf false)
          (by omega) (by omega) (by omega) (by omega)
      have hk15 : (k : Int) + 1 ≤ 15 := by omega
      have eidx : ∀ j : Nat, ((wf + 1) % 16 + (j : Int)) % 16
          = (wf + ((j : Int) + 1)) % 16 := by
        intro j; omega
      have hnotwf : ∀ j : Nat, (j : Int) + 1 ≤ 15 →
          (wf + ((j : Int) + 1)) % 16 ≠ wf := by
        intro j hj; omega
      refine ⟨k + 1, by omega, ?_, ?_, ?_, ?_, ?_⟩
      · rw [hstep, hres, eidx]
        push_cast
        ring_nf
      · intro j hj
        cases j with
        | zero =>
          have e0 : (wf + ((0 : Nat) : Int)) % 16 = wf := by push_cast; omega
          rw [e0, hac]
        | succ j' =>
          have hj' : j' < k := by omega
          have := hpre j' hj'
          rw [eidx j'] at this
          rw [Function.update_noteq (hnotwf j' (by omega))] at this
          push_cast at this ⊢
          exact this
      · intro j hj
        rw [hstep]
        cases j with
        | zero =>
          have e0 : (wf + ((0 : Nat) : Int)) % 16 = wf := by push_cast; omega
          rw [e0]
          have hframe : ∀ j : Nat, j < k → ((wf + 1) % 16 + (j : Int)) % 16 ≠ wf := by
            intro j hjk
            rw [eidx j]
            exact hnotwf j (by omega)
          rw [hfr wf hframe]
          exact Function.update_same wf false acked
        | succ j' =>
          have hj' : j' < k := by omega
          have := hclr j' hj'
          rw [eidx j'] at this
          push_cast at this ⊢
          exact this
      · intro i hi
        rw [hstep]
        have hiwf : wf ≠ i := by
          have := hi 0 (by omega)
          have e0 : (wf + ((0 : Nat) : Int)) % 16 = wf := by push_cast; omega
          rwa [e0] at this
        have hframe : ∀ j : Nat, j < k → ((wf + 1) % 16 + (j : Int)) % 16 ≠ i := by
          intro j hjk
          rw [eidx j]
          have := hi (j + 1) (by omega)
          push_cast at this ⊢
          exact this
        rw [hfr i hframe]
        exact Function.update_noteq (Ne.symm hiwf) false acked
      · rcases hmax with h | h
        · exact Or.inl (by omega)
        · right
          rw [eidx k] at h
          rw [Function.update_noteq (hnotwf k hk15)] at h
          push_cast
          exact h
    · -- the flag at `wf` is clear: the loop stops immediately
      rw [Bool.not_eq_true] at hac
      have heq : slideWhile next (f + 1) wf acked = (wf, acked) := by
        simp only [slideWhile]
        rw [if_neg]
        rintro ⟨-, hc⟩
        rw [hac] at hc
        exact Bool.false_ne_true hc
      have e0 : (wf + ((0 : Nat) : Int)) % 16 = wf := by push_cast; omega
      refine ⟨0, by omega, ?_, ?_, ?_, ?_, ?_⟩
      · rw [heq, e0]
      · intro j hj; omega
      · intro j hj; omega
      · intro i _; rw [heq]
      · right; rw [e0]; exact hac

/-! ## ACK at the window base (C5) -/

/-- C5: on an uncorrupted, in-window, not-yet-acknowledged ACK whose
`acknum` equals `base`, `A_input` stops the timer, advances `base` forward
over the maximal run of set acknowledged-flags (clearing each flag it
consumes and never passing `next`), and finally restarts the timer iff the
new `base` differs from `next`, leaving it stopped when they coincide. -/
theorem a_input_ack_at_base_slides (s : AState) (p : pkt)
    (hw0 : 0 ≤ s.windowfirst) (hw1 : s.windowfirst < SEQSPACE)
    (hn0 : 0 ≤ s.A_nextseqnum) (hn1 : s.A_nextseqnum < SEQSPACE)
    (hc : IsCorrupted p = false)
    (hin : is_within_window p.acknum s.windowfirst s.A_nextseqnum = true)
    (hack : s.isAcked p.acknum = false)
    (heq : p.acknum = s.windowfirst) :
    ∃ k : Nat,
      (k : Int) ≤ (s.A_nextseqnum - s.windowfirst) % SEQSPACE ∧
      (A_input s p).1.windowfirst = (s.windowfirst + (k : Int)) % SEQSPACE ∧
      (∀ j : Nat, j < k →
        Function.update s.isAcked s.windowfirst true
          ((s.windowfirst + (j : Int)) % SEQSPACE) = true) ∧
      (∀ j : Nat, j < k →
        (A_input s p).1.isAcked ((s.windowfirst + (j : Int)) % SEQSPACE) = false) ∧
      (∀ i : Int, (∀ j : Nat, j < k → (s.windowfirst + (j : Int)) % SEQSPACE ≠ i) →
        (A_input s p).1.isAcked i = Function.update s.isAcked s.windowfirst true i) ∧
      ((k : Int) = (s.A_nextseqnum - s.windowfirst) % SEQSPACE ∨
        Function.update s.isAcked s.windowfirst true
          ((s.windowfirst + (k : Int)) % SEQSPACE) = false) ∧
      (A_input s p).1.A_nextseqnum = s.A_nextseqnum ∧
      (A_input s p).2 = Event.stoptimer A ::
        (if (A_input s p).1.windowfirst ≠ s.A_nextseqnum
         then [Event.starttimer A] else []) := by
  simp only [SEQSPACE] at *
  rw [heq] at hin hack
  simp only [A_input, hc, hin, hack, heq, Bool.not_true, Bool.false_eq_true,
    if_false, if_true, eq_self_iff_true]
  obtain ⟨k, hk, hres, hpre, hclr, hfr, hmax⟩ :=
    slideWhile_char s.A_nextseqnum hn0 hn1
      (((s.A_nextseqnum - s.windowfirst) % 16).toNat) 16 s.windowfirst
      (Function.update s.isAcked s.windowfirst true) hw0 hw1 (by omega) (by omega)
  refine ⟨k, by omega, hres, hpre, hclr, hfr, ?_, by trivial, by trivial⟩
  rcases hmax with h | h
  · left; omega
  · right; exact h

/-- Concrete sender state for the C5 witness: fresh window `[0, 2)` with two
outstanding packets and no flags set. -/
def sC5 : AState := { A_init with A_nextseqnum := 2 }

/-- Witness for C5: the theorem applied at `sC5` and the ACK for sequence 0. -/
theorem a_input_ack_at_base_slides_witness :
    ∃ k : Nat,
      (k : Int) ≤ (sC5.A_nextseqnum - sC5.windowfirst) % SEQSPACE ∧
      (A_input sC5 (ackFor 0)).1.windowfirst
        = (sC5.windowfirst + (k : Int)) % SEQSPACE ∧
      (∀ j : Nat, j < k →
        Function.update sC5.isAcked sC5.windowfirst true
          ((sC5.windowfirst + (j : Int)) % SEQSPACE) = true) ∧
      (∀ j : Nat, j < k →
        (A_input sC5 (ackFor 0)).1.isAcked
          ((sC5.windowfirst + (j : Int)) % SEQSPACE) = false) ∧
      (∀ i : Int, (∀ j : Nat, j < k → (sC5.windowfirst + (j : Int)) % SEQSPACE ≠ i) →
        (A_input sC5 (ackFor 0)).1.isAcked i
          = Function.update sC5.isAcked sC5.windowfirst true i) ∧
      ((k : Int) = (sC5.A_nextseqnum - sC5.windowfirst) % SEQSPACE ∨
        Function.update sC5.isAcked sC5.windowfirst true
          ((sC5.windowfirst + (k : Int)) % SEQSPACE) = false) ∧
      (A_input sC5 (ackFor 0)).1.A_nextseqnum = sC5.A_nextseqnum ∧
      (A_input sC5 (ackFor 0)).2 = Event.stoptimer A ::
        (if (A_input sC5 (ackFor 0)).1.windowfirst ≠ sC5.A_nextseqnum
         then [Event.starttimer A] else []) :=
  a_input_ack_at_base_slides sC5 (ackFor 0) (by decide) (by decide) (by decide)
    (by decide) (by decide) (by decide) (by decide) (by decide)

/-! ## Duplicate ACK delivery (C6) -/

/-- C6: delivering the same valid (uncorrupted, in-window) ACK twice changes
the sender's window state (`base`, `next`, flags, buffer) only on the first
delivery; the second delivery is a no-op on that state — it emits no events
and its only effect is incrementing the received-ACKs counter. -/
theorem a_input_duplicate_ack_noop (s : AState) (p : pkt)
    (hw0 : 0 ≤ s.windowfirst) (hw1 : s.windowfirst < SEQSPACE)
    (hn0 : 0 ≤ s.A_nextseqnum) (hn1 : s.A_nextseqnum < SEQSPACE)
    (hc : IsCorrupted p = false)
    (hin : is_within_window p.acknum s.windowfirst s.A_nextseqnum = true) :
    (A_input (A_input s p).1 p).1
      = { (A_input s p).1 with
          total_ACKs_received := (A_input s p).1.total_ACKs_received + 1 } ∧
    (A_input (A_input s p).1 p).2 = [] := by
  simp only [SEQSPACE] at *
  by_cases hA : s.isAcked p.acknum = true
  · -- the ACK was already recorded: both deliveries take the duplicate path
    have h1 : A_input s p
        = ({ s with total_ACKs_received := s.total_ACKs_received + 1 }, []) := by
      simp only [A_input, hc, hin, hA, Bool.not_true, Bool.false_eq_true,
        if_false, if_true]
    rw [h1]
    constructor
    · simp only [A_input, hc, hin, hA, Bool.not_true, Bool.false_eq_true,
        if_false, if_true]
    · simp only [A_input, hc, hin, hA, Bool.not_true, Bool.false_eq_true,
        if_false, if_true]
  · rw [Bool.not_eq_true] at hA
    by_cases hneq : p.acknum = s.windowfirst
    · -- first delivery acknowledges the base and slides the window
      rw [hneq] at hin hA
      have hd0 : (0 : Int) < (s.A_nextseqnum - s.windowfirst) % 16 := by
        have := (is_within_window_iff_emod hw0 hw1 hw0 hw1 hn0 hn1).mp hin
        omega
      obtain ⟨k, hk, hres, hpre, hclr, hfr, hmax⟩ :=
        slideWhile_char s.A_nextseqnum hn0 hn1
          (((s.A_nextseqnum - s.windowfirst) % 16).toNat) 16 s.windowfirst
          (Function.update s.isAcked s.windowfirst true) hw0 hw1 (by omega) (by omega)
      have hk1 : 1 ≤ k := by
        rcases Nat.eq_zero_or_pos k with rfl | h
        · rcases hmax with h | h
          · omega
          · rw [show (s.windowfirst + ((0 : Nat) : Int)) % 16 = s.windowfirst by
                push_cast; omega] at h
            rw [Function.update_same] at h
            exact absurd h (by simp)
        · exact h
      have h1 : A_input s p
          = ({ s with total_ACKs_received := s.total_ACKs_received + 1,
                      new_ACKs := s.new_ACKs + 1,
                      windowfirst := (slideWhile s.A_nextseqnum 16 s.windowfirst
                        (Function.update s.isAcked s.windowfirst true)).1,
                      isAcked := (slideWhile s.A_nextseqnum 16 s.windowfirst
                        (Function.update s.isAcked s.windowfirst true)).2 },
             Event.stoptimer A ::
               (if (slideWhile s.A_nextseqnum 16 s.windowfirst
                      (Function.update s.isAcked s.windowfirst true)).1
                     ≠ s.A_nextseqnum
                then [Event.starttimer A] else [])) := by
        simp only [A_input, hc, hin, hA, hneq, eq_self_iff_true, if_true,
          Bool.not_true, Bool.false_eq_true, if_false]
      have hmem : is_within_window p.acknum
          ((s.windowfirst + (k : Int)) % 16) s.A_nextseqnum = false := by
        rw [hneq, Bool.eq_false_iff]
        intro htrue
        rw [is_within_window_iff_emod hw0 hw1 (by omega) (by omega) hn0 hn1] at htrue
        omega
      rw [h1]
      have hmem' : is_within_window p.acknum
          (slideWhile s.A_nextseqnum 16 s.windowfirst
            (Function.update s.isAcked s.windowfirst true)).1 s.A_nextseqnum
          = false := by
        rw [hres]
        exact hmem
      constructor
      · simp only [A_input, hc, hmem', Bool.not_false, if_true, if_false,
          Bool.false_eq_true]
      · simp only [A_input, hc, hmem', Bool.not_false, if_true, if_false,
          Bool.false_eq_true]
    · -- in-window ACK strictly above the base: flag set, no slide
      have h1 : A_input s p
          = ({ s with total_ACKs_received := s.total_ACKs_received + 1,
                      new_ACKs := s.new_ACKs + 1,
                      isAcked := Function.update s.isAcked p.acknum true }, []) := by
        simp only [A_input, hc, hin, hA, hneq, Bool.not_true, Bool.false_eq_true,
          if_false, if_true, ite_eq_right_iff]
      rw [h1]
      constructor
      · simp only [A_input, hc, hin, Bool.not_true, Bool.false_eq_true,
          if_false, if_true, Function.update_same]
      · simp only [A_input, hc, hin, Bool.not_true, Bool.false_eq_true,
          if_false, if_true, Function.update_same]

/-- Witness for C6: the ACK for sequence 0 delivered twice at `sC5`. -/
theorem a_input_duplicate_ack_noop_witness :
    (A_input (A_input sC5 (ackFor 0)).1 (ackFor 0)).1
      = { (A_input sC5 (ackFor 0)).1 with
          total_ACKs_received := (A_input sC5 (ackFor 0)).1.total_ACKs_received + 1 } ∧
    (A_input (A_input sC5 (ackFor 0)).1 (ackFor 0)).2 = [] :=
  a_input_duplicate_ack_noop sC5 (ackFor 0) (by decide) (by decide) (by decide)
    (by decide) (by decide) (by decide)

/-! ## Characterization of the receiver drain loop (towards C7) -/

/-- Characterization of `drainWhile`: from a start residue in `[0, 16)` and
fuel at most 16, the loop delivers the payloads of the maximal contiguous
run of occupied slots starting at `start` in ascending slot order (the run
capped by the fuel), marks exactly those slots empty, and advances the
start index once per delivery. -/
lemma drainWhile_char :
    ∀ (fuel : Nat) (buf : Int → pkt) (start : Int),
      0 ≤ start → start < 16 → fuel ≤ 16 →
      ∃ m : Nat, m ≤ fuel ∧
        (drainWhile fuel buf start).2.1 = (start + (m : Int)) % 16 ∧
        (drainWhile fuel buf start).2.2
          = (List.range m).map
              (fun j : Nat => (buf ((start + (j : Int)) % 16)).payload) ∧
        (∀ j : Nat, j < m → (buf ((start + (j : Int)) % 16)).seqnum ≠ NOTINUSE) ∧
        (m = fuel ∨ (buf ((start + (m : Int)) % 16)).seqnum = NOTINUSE) ∧
        (∀ j : Nat, j < m →
          ((drainWhile fuel buf start).1 ((start + (j : Int)) % 16)).seqnum
            = NOTINUSE) ∧
        (∀ i : Int, (∀ j : Nat, j < m → (start + (j : Int)) % 16 ≠ i) →
          (drainWhile fuel buf start).1 i = buf i) := by
  intro fuel
  induction fuel with
  | zero =>
    intro buf start h0 h1 hf
    refine ⟨0, Nat.le_refl 0, ?_, rfl, ?_, Or.inl rfl, ?_, ?_⟩
    · show start = (start + ((0 : Nat) : Int)) % 16
      push_cast
      omega
    · intro j hj; omega
    · intro j hj; omega
    · intro i _; rfl
  | succ f ih =>
    intro buf start h0 h1 hf
    have e0 : (start + ((0 : Nat) : Int)) % 16 = start := by push_cast; omega
    by_cases hocc : (buf start).seqnum = NOTINUSE
    · -- the slot at `start` is empty: the loop stops at once
      have hstep : drainWhile (f + 1) buf start = (buf, start, []) := by
        simp only [drainWhile]
        rw [if_neg (by simpa using hocc)]
      refine ⟨0, by omega, ?_, ?_, ?_, ?_, ?_, ?_⟩
      · rw [hstep, e0]
      · rw [hstep]
        rfl
      · intro j hj; omega
      · right; rw [e0]; exact hocc
      · intro j hj; omega
      · intro i _; rw [hstep]
    · -- occupied: deliver the payload at `start` and recurse
      have hstep1 : (drainWhile (f + 1) buf start).1
          = (drainWhile f (Function.update buf start { buf start with seqnum := NOTINUSE })
              ((start + 1) % 16)).1 := by
        simp only [drainWhile, SEQSPACE]
        rw [if_pos hocc]
      have hstep21 : (drainWhile (f + 1) buf start).2.1
          = (drainWhile f (Function.update buf start { buf start with seqnum := NOTINUSE })
              ((start + 1) % 16)).2.1 := by
        simp only [drainWhile, SEQSPACE]
        rw [if_pos hocc]
      have hstep22 : (drainWhile (f + 1) buf start).2.2
          = (buf start).payload ::
            (drainWhile f (Function.update buf start { buf start with seqnum := NOTINUSE })
              ((start + 1) % 16)).2.2 := by
        simp only [drainWhile, SEQSPACE]
        rw [if_pos hocc]
      obtain ⟨m, hm, hres, hdel, hpre, hmax, hclr, hfr⟩ :=
        ih (Function.update buf start { buf start with seqnum := NOTINUSE })
          ((start + 1) % 16) (by omega) (by omega) (by omega)
      have eidx : ∀ j : Nat, ((start + 1) % 16 + (j : Int)) % 16
          = (start + ((j : Int) + 1)) % 16 := by
        intro j; omega
      have hnot : ∀ j : Nat, (j : Int) + 1 ≤ 15 →
          (start + ((j : Int) + 1)) % 16 ≠ start := by
        intro j hj; omega
      refine ⟨m + 1, by omega, ?_, ?_, ?_, ?_, ?_, ?_⟩
      · rw [hstep21, hres, eidx m]
        push_cast
        ring_nf
      · rw [hstep22, hdel, List.range_succ_eq_map, List.map_cons, List.map_map]
        congr 1
        · rw [e0]
        · apply List.map_congr_left
          intro j hj
          have hj' : j < m := List.mem_range.mp hj
          show (Function.update buf start { buf start with seqnum := NOTINUSE }
              (((start + 1) % 16 + (j : Int)) % 16)).payload
            = (buf ((start + ((j.succ : Nat) : Int)) % 16)).payload
          rw [eidx j, Function.update_noteq (hnot j (by omega))]
          push_cast
          ring_nf
      · intro j hj
        cases j with
        | zero => rw [e0]; exact hocc
        | succ j' =>
          have hj' : j' < m := by omega
          have h := hpre j' hj'
          rw [eidx j', Function.update_noteq (hnot j' (by omega))] at h
          push_cast at h ⊢
          exact h
      · rcases hmax with h | h
        · left; omega
        · by_cases hm15 : m = 15
          · left; omega
          · right
            rw [eidx m, Function.update_noteq (hnot m (by omega))] at h
            push_cast at h ⊢
            exact h
      · intro j hj
        rw [hstep1]
        cases j with
        | zero =>
          rw [e0]
          have hframe : ∀ j : Nat, j < m →
              ((start + 1) % 16 + (j : Int)) % 16 ≠ start := by
            intro j hjm
            rw [eidx j]
            exact hnot j (by omega)
          rw [hfr start hframe, Function.update_same]
        | succ j' =>
          have hj' : j' < m := by omega
          have h := hclr j' hj'
          rw [eidx j'] at h
          push_cast at h ⊢
          exact h
      · intro i hi
        rw [hstep1]
        have histart : start ≠ i := by
          have := hi 0 (by omega)
          rwa [e0] at this
        have hframe : ∀ j : Nat, j < m →
            ((start + 1) % 16 + (j : Int)) % 16 ≠ i := by
          intro j hjm
          rw [eidx j]
          have := hi (j + 1) (by omega)
          push_cast at this ⊢
          exact this
        rw [hfr i hframe]
        exact Function.update_noteq (Ne.symm histart) _ buf

/-! ## Receiver: current-window packets (C7) -/

/-- The reassembly buffer after `B_input`'s conditional store: the arriving
packet is written to slot `packet.seqnum` only if that slot is empty. -/
def bufferAfterStore (s : BState) (packet : pkt) : Int → pkt :=
  if (s.buffer_B_side packet.seqnum).seqnum = NOTINUSE then
    Function.update s.buffer_B_side packet.seqnum packet
  else
    s.buffer_B_side

/-- C7: on an uncorrupted packet in the current window, `B_input` sends
exactly one ACK — whose acknowledgment field echoes the packet's `seqnum`,
with filler payload `'A'` and a valid checksum — stores the packet in its
reassembly slot only if that slot is empty, and then delivers to the
application, in ascending sequence order, the maximal contiguous run of
occupied slots starting at `base`, marking each delivered slot empty and
advancing `base` (mod `SEQSPACE`) once per delivery. -/
theorem b_input_current_window (s : BState) (p : pkt)
    (hb0 : 0 ≤ s.buffer_B_start) (hb1 : s.buffer_B_start < SEQSPACE)
    (_hs0 : 0 ≤ p.seqnum) (_hs1 : p.seqnum < SEQSPACE)
    (hc : IsCorrupted p = false)
    (hw : is_within_window p.seqnum s.buffer_B_start
            ((s.buffer_B_start + WINDOWSIZE) % SEQSPACE) = true) :
    ∃ (q : pkt) (m : Nat),
      q.acknum = p.seqnum ∧
      q.seqnum = NOTINUSE ∧
      (∀ i : Fin 20, q.payload i = 65) ∧
      IsCorrupted q = false ∧
      m ≤ 16 ∧
      (B_input s p).2 = Event.tolayer3 B q ::
        (List.range m).map (fun j : Nat => Event.tolayer5 B
          ((bufferAfterStore s p ((s.buffer_B_start + (j : Int)) % SEQSPACE)).payload)) ∧
      (∀ j : Nat, j < m →
        (bufferAfterStore s p ((s.buffer_B_start + (j : Int)) % SEQSPACE)).seqnum
          ≠ NOTINUSE) ∧
      (m = 16 ∨
        (bufferAfterStore s p ((s.buffer_B_start + (m : Int)) % SEQSPACE)).seqnum
          = NOTINUSE) ∧
      (B_input s p).1.buffer_B_start = (s.buffer_B_start + (m : Int)) % SEQSPACE ∧
      (∀ j : Nat, j < m →
        ((B_input s p).1.buffer_B_side ((s.buffer_B_start + (j : Int)) % SEQSPACE)).seqnum
          = NOTINUSE) ∧
      (∀ i : Int, (∀ j : Nat, j < m → (s.buffer_B_start + (j : Int)) % SEQSPACE ≠ i) →
        (B_input s p).1.buffer_B_side i = bufferAfterStore s p i) := by
  simp only [SEQSPACE, WINDOWSIZE] at *
  by_cases hslot : (s.buffer_B_side p.seqnum).seqnum = NOTINUSE
  · simp only [B_input, bufferAfterStore, SEQSPACE, WINDOWSIZE, hc, hw, hslot,
      Bool.false_eq_true, if_false, if_true, eq_self_iff_true]
    obtain ⟨m, hm, hres, hdel, hpre, hmax, hclr, hfr⟩ :=
      drainWhile_char 16 (Function.update s.buffer_B_side p.seqnum p)
        s.buffer_B_start hb0 hb1 (by omega)
    refine ⟨ackFor p.seqnum, m,
      rfl, rfl, fun i => rfl, by simp [ackFor, IsCorrupted, ComputeChecksum],
      hm, ?_, hpre, hmax, hres, hclr, hfr⟩
    rw [hdel, List.map_map]
    rfl
  · simp only [B_input, bufferAfterStore, SEQSPACE, WINDOWSIZE, hc, hw, hslot,
      Bool.false_eq_true, if_false, if_true, eq_self_iff_true]
    obtain ⟨m, hm, hres, hdel, hpre, hmax, hclr, hfr⟩ :=
      drainWhile_char 16 s.buffer_B_side s.buffer_B_start hb0 hb1 (by omega)
    refine ⟨ackFor p.seqnum, m,
      rfl, rfl, fun i => rfl, by simp [ackFor, IsCorrupted, ComputeChecksum],
      hm, ?_, hpre, hmax, hres, hclr, hfr⟩
    rw [hdel, List.map_map]
    rfl

/-- A concrete uncorrupted data packet with sequence number 0. -/
def pktC7 : pkt :=
  let p0 : pkt := { seqnum := 0, acknum := NOTINUSE, payload := fun _ => 48, checksum := 0 }
  { p0 with checksum := ComputeChecksum p0 }

/-- Witness for C7: packet 0 arriving at the freshly initialized receiver. -/
theorem b_input_current_window_witness :
    ∃ (q : pkt) (m : Nat),
      q.acknum = pktC7.seqnum ∧
      q.seqnum = NOTINUSE ∧
      (∀ i : Fin 20, q.payload i = 65) ∧
      IsCorrupted q = false ∧
      m ≤ 16 ∧
      (B_input B_init pktC7).2 = Event.tolayer3 B q ::
        (List.range m).map (fun j : Nat => Event.tolayer5 B
          ((bufferAfterStore B_init pktC7
            ((B_init.buffer_B_start + (j : Int)) % SEQSPACE)).payload)) ∧
      (∀ j : Nat, j < m →
        (bufferAfterStore B_init pktC7
          ((B_init.buffer_B_start + (j : Int)) % SEQSPACE)).seqnum ≠ NOTINUSE) ∧
      (m = 16 ∨
        (bufferAfterStore B_init pktC7
          ((B_init.buffer_B_start + (m : Int)) % SEQSPACE)).seqnum = NOTINUSE) ∧
      (B_input B_init pktC7).1.buffer_B_start
        = (B_init.buffer_B_start + (m : Int)) % SEQSPACE ∧
      (∀ j : Nat, j < m →
        ((B_input B_init pktC7).1.buffer_B_side
          ((B_init.buffer_B_start + (j : Int)) % SEQSPACE)).seqnum = NOTINUSE) ∧
      (∀ i : Int,
        (∀ j : Nat, j < m → (B_init.buffer_B_start + (j : Int)) % SEQSPACE ≠ i) →
        (B_input B_init pktC7).1.buffer_B_side i = bufferAfterStore B_init pktC7 i) :=
  b_input_current_window B_init pktC7 (by decide) (by decide) (by decide)
    (by decide) (by decide) (by decide)

/-! ## Receiver: previous-window duplicates (C8) -/

/-- C8: on an uncorrupted packet whose sequence number lies in the previous
window `[base-WINDOWSIZE, base)` (mod `SEQSPACE`), `B_input` sends an
acknowledgment echoing the sequence number but leaves the receiver window
state unchanged: `base` is not moved, no reassembly slot is modified, and
nothing is delivered to the application (only the received-packets counter
advances). -/
theorem b_input_prev_window (s : BState) (p : pkt)
    (hb0 : 0 ≤ s.buffer_B_start) (hb1 : s.buffer_B_start < SEQSPACE)
    (hs0 : 0 ≤ p.seqnum) (hs1 : p.seqnum < SEQSPACE)
    (hc : IsCorrupted p = false)
    (hw : is_within_window p.seqnum
            ((s.buffer_B_start + SEQSPACE - WINDOWSIZE) % SEQSPACE)
            s.buffer_B_start = true) :
    ∃ q : pkt,
      q.acknum = p.seqnum ∧ q.seqnum = NOTINUSE ∧
      (∀ i : Fin 20, q.payload i = 65) ∧ IsCorrupted q = false ∧
      B_input s p = ({ s with packets_received := s.packets_received + 1 },
                     [Event.tolayer3 B q]) := by
  simp only [SEQSPACE, WINDOWSIZE] at *
  have hcur : is_within_window p.seqnum s.buffer_B_start
      ((s.buffer_B_start + 6) % 16) = false := by
    rw [Bool.eq_false_iff]
    intro htrue
    rw [is_within_window_iff_emod hs0 hs1 hb0 hb1 (by omega) (by omega)] at htrue
    rw [is_within_window_iff_emod hs0 hs1 (by omega) (by omega) hb0 hb1] at hw
    omega
  refine ⟨ackFor p.seqnum, rfl, rfl, fun i => rfl,
    by simp [ackFor, IsCorrupted, ComputeChecksum], ?_⟩
  simp only [B_input, SEQSPACE, WINDOWSIZE, hc, hcur, hw, Bool.false_eq_true,
    if_false, if_true]
  rfl

/-- A concrete uncorrupted duplicate packet with sequence number 12, in the
previous window of the fresh receiver (whose window base is 0). -/
def pktC8 : pkt :=
  let p0 : pkt := { seqnum := 12, acknum := NOTINUSE, payload := fun _ => 48, checksum := 0 }
  { p0 with checksum := ComputeChecksum p0 }

/-- Witness for C8: duplicate packet 12 arriving at the fresh receiver. -/
theorem b_input_prev_window_witness :
    ∃ q : pkt,
      q.acknum = pktC8.seqnum ∧ q.seqnum = NOTINUSE ∧
      (∀ i : Fin 20, q.payload i = 65) ∧ IsCorrupted q = false ∧
      B_input B_init pktC8
        = ({ B_init with packets_received := B_init.packets_received + 1 },
           [Event.tolayer3 B q]) :=
  b_input_prev_window B_init pktC8 (by decide) (by decide) (by decide)
    (by decide) (by decide) (by decide)

/-! ## Bounds of the receiver buffer accesses (C10) -/

/-- Bounds-checked read of the `SEQSPACE`-sized reassembly array. -/
def getChecked (buf : Int → pkt) (i : Int) : Option pkt :=
  if 0 ≤ i ∧ i < SEQSPACE then some (buf i) else none

/-- Bounds-checked write to the `SEQSPACE`-sized reassembly array. -/
def setChecked (buf : Int → pkt) (i : Int) (v : pkt) : Option (Int → pkt) :=
  if 0 ≤ i ∧ i < SEQSPACE then some (Function.update buf i v) else none

/-- The drain loop of `B_input` with every array access bounds-checked. -/
def drainWhileChecked :
    Nat → (Int → pkt) → Int → Option ((Int → pkt) × Int × List (Fin 20 → Int))
  | 0, buf, start => some (buf, start, [])
  | fuel + 1, buf, start =>
    (getChecked buf start).bind fun slot =>
      if slot.seqnum ≠ NOTINUSE then
        (setChecked buf start { slot with seqnum := NOTINUSE }).bind fun buf1 =>
          (drainWhileChecked fuel buf1 ((start + 1) % SEQSPACE)).bind fun r =>
            some (r.1, r.2.1, slot.payload :: r.2.2)
      else
        some (buf, start, [])

/-- `B_input` with every reassembly-buffer access bounds-checked; the
out-of-bounds branch of any access yields `none`. -/
def B_input_checked (s : BState) (packet : pkt) : Option (BState × List Event) :=
  let left := s.buffer_B_start
  let right := (s.buffer_B_start + WINDOWSIZE) % SEQSPACE
  let prevLeft := (s.buffer_B_start + SEQSPACE - WINDOWSIZE) % SEQSPACE
  let prevRight := s.buffer_B_start
  if IsCorrupted packet then
    some (s, [])
  else
    let s1 := { s with packets_received := s.packets_received + 1 }
    if is_within_window packet.seqnum left right then
      let packet_return : pkt :=
        let p0 : pkt :=
          { seqnum := NOTINUSE, acknum := packet.seqnum,
            payload := fun _ => 65, checksum := 0 }
        { p0 with checksum := ComputeChecksum p0 }
      (getChecked s1.buffer_B_side packet.seqnum).bind fun buffer_pkt =>
        (if buffer_pkt.seqnum = NOTINUSE then
            (setChecked s1.buffer_B_side packet.seqnum packet).bind fun b =>
              some { s1 with buffer_B_side := b }
          else some s1).bind fun s2 =>
          (drainWhileChecked 16 s2.buffer_B_side s2.buffer_B_start).bind fun r =>
            some ({ s2 with buffer_B_side := r.1, buffer_B_start := r.2.1 },
                  Event.tolayer3 B packet_return :: r.2.2.map (Event.tolayer5 B))
    else if is_within_window packet.seqnum prevLeft prevRight then
      let prev_buffer_pkt : pkt :=
        let p0 : pkt :=
          { seqnum := NOTINUSE, acknum := packet.seqnum,
            payload := fun _ => 65, checksum := 0 }
        { p0 with checksum := ComputeChecksum p0 }
      some (s1, [Event.tolayer3 B prev_buffer_pkt])
    else
      some (s1, [])

/-- The checked drain loop never goes out of bounds from an in-range start
index, and agrees with the unchecked one. -/
lemma drainWhileChecked_eq :
    ∀ (fuel : Nat) (buf : Int → pkt) (start : Int),
      0 ≤ start → start < 16 →
      drainWhileChecked fuel buf start = some (drainWhile fuel buf start) := by
  intro fuel
  induction fuel with
  | zero => intro buf start h0 h1; rfl
  | succ f ih =>
    intro buf start h0 h1
    have hget : getChecked buf start = some (buf start) := by
      rw [getChecked, if_pos]
      exact ⟨h0, by simp only [SEQSPACE]; omega⟩
    have hset : setChecked buf start { buf start with seqnum := NOTINUSE }
        = some (Function.update buf start { buf start with seqnum := NOTINUSE }) := by
      rw [setChecked, if_pos]
      exact ⟨h0, by simp only [SEQSPACE]; omega⟩
    simp only [drainWhileChecked, drainWhile, SEQSPACE, hget, Option.some_bind]
    by_cases hocc : (buf start).seqnum = NOTINUSE
    · rw [if_neg (by simpa using hocc), if_neg (by simpa using hocc)]
    · rw [if_pos hocc, if_pos hocc, hset, Option.some_bind,
        ih (Function.update buf start { buf start with seqnum := NOTINUSE })
          ((start + 1) % 16) (by omega) (by omega), Option.some_bind]

/-- A receiver state whose window base is 11, so that the current window
`[11, 1)` wraps around the sequence space. -/
def sOOB : BState := { B_init with buffer_B_start := 11 }

/-- An uncorrupted packet carrying the out-of-range sequence number 16; the
wrapped membership test `seq >= 11 || seq < 1` accepts it. -/
def pktOOB : pkt :=
  let p0 : pkt := { seqnum := 16, acknum := NOTINUSE, payload := fun _ => 48, checksum := 0 }
  { p0 with checksum := ComputeChecksum p0 }

/-- C10: for every receiver state with `base` in `[0, SEQSPACE)` and every
uncorrupted packet with `seqnum` in `[0, SEQSPACE)`, every reassembly-buffer
access of `B_input` stays in bounds — the bounds-checked embedding returns
`some` and agrees with the unchecked one; and the in-range precondition on
`seqnum` is genuine: the packet's `seqnum` indexes the buffer with no
reduction mod `SEQSPACE`, and an uncorrupted packet with `seqnum = 16`
accepted by a wrapped current window drives an access out of bounds. -/
theorem b_input_buffer_accesses_in_bounds :
    (∀ (s : BState) (p : pkt),
      0 ≤ s.buffer_B_start → s.buffer_B_start < SEQSPACE →
      0 ≤ p.seqnum → p.seqnum < SEQSPACE →
      IsCorrupted p = false →
      B_input_checked s p = some (B_input s p)) ∧
    B_input_checked sOOB pktOOB = none := by
  constructor
  · intro s p hb0 hb1 hs0 hs1 hc
    simp only [SEQSPACE] at hb1 hs1
    have hget : getChecked s.buffer_B_side p.seqnum
        = some (s.buffer_B_side p.seqnum) := by
      rw [getChecked, if_pos]
      exact ⟨hs0, by simp only [SEQSPACE]; omega⟩
    have hset : setChecked s.buffer_B_side p.seqnum p
        = some (Function.update s.buffer_B_side p.seqnum p) := by
      rw [setChecked, if_pos]
      exact ⟨hs0, by simp only [SEQSPACE]; omega⟩
    by_cases hcw : is_within_window p.seqnum s.buffer_B_start
        ((s.buffer_B_start + WINDOWSIZE) % SEQSPACE) = true
    · by_cases hslot : (s.buffer_B_side p.seqnum).seqnum = NOTINUSE
      · simp only [B_input, B_input_checked, hc, hcw, hslot, hget, hset,
          Bool.false_eq_true, if_false, if_true, Option.some_bind,
          drainWhileChecked_eq 16 (Function.update s.buffer_B_side p.seqnum p)
            s.buffer_B_start hb0 (by omega)]
      · simp only [B_input, B_input_checked, hc, hcw, hslot, hget,
          Bool.false_eq_true, if_false, if_true, Option.some_bind,
          drainWhileChecked_eq 16 s.buffer_B_side s.buffer_B_start hb0 (by omega)]
    · rw [Bool.not_eq_true] at hcw
      by_cases hpw : is_within_window p.seqnum
          ((s.buffer_B_start + SEQSPACE - WINDOWSIZE) % SEQSPACE)
          s.buffer_B_start = true
      · simp only [B_input, B_input_checked, hc, hcw, hpw,
          Bool.false_eq_true, if_false, if_true]
      · rw [Bool.not_eq_true] at hpw
        simp only [B_input, B_input_checked, hc, hcw, hpw,
          Bool.false_eq_true, if_false, if_true]
  · rfl

/-- Witness for C10: the checked and unchecked receivers agree on packet 0
at the fresh receiver state. -/
theorem b_input_buffer_accesses_in_bounds_witness :
    B_input_checked B_init pktC7 = some (B_input B_init pktC7) :=
  b_input_buffer_accesses_in_bounds.1 B_init pktC7 (by decide) (by decide)
    (by decide) (by decide) (by decide)
